import Mathlib

/-!
Verification of the BASP protocol engine (`libcaf_io/src/instance.cpp`).

The engine is embedded shallowly: the mutable instance state (routing
table, published actors, per-connection write buffers) is passed
explicitly, callee upcalls and hook notifications are recorded as an
event list, and byte buffers are `List Nat` of byte values.  Components
of the repository that are only declared here (the routing table, the
header codec, `valid`, the payload codecs, protocol constants) are
modelled from the specification and marked as such in their doc
comments.
-/

namespace Basp

/-- Node identifier.  Modelled from the spec: opaque globally unique id
with a distinguished invalid value; represented as a natural number
serialized as a 32-bit field. -/
abbrev NodeId := Nat

/-- Modelled from the spec: the distinguished invalid node id. -/
def invalid_node_id : NodeId := 0

/-- Actor identifier: 32-bit unsigned per the spec. -/
abbrev ActorId := Nat

/-- The distinguished invalid actor id (0 per the spec). -/
def invalid_actor_id : ActorId := 0

/-- Connection handle issued by the broker.  Modelled from the spec:
opaque with a distinguished invalid value. -/
abbrev ConnHdl := Nat

/-- Modelled from the spec: the distinguished invalid connection handle. -/
def invalid_connection_handle : ConnHdl := 0

/-- An actor address pairs an actor id with a node id (spec §3). -/
structure ActorAddr where
  node : NodeId
  id : ActorId
deriving DecidableEq

/-- Operation codes of `message_type` (spec §3): `server_handshake`. -/
def OP_SERVER_HANDSHAKE : Nat := 0

/-- Operation code of `client_handshake`. -/
def OP_CLIENT_HANDSHAKE : Nat := 1

/-- Operation code of `dispatch_message`. -/
def OP_DISPATCH_MESSAGE : Nat := 2

/-- Operation code of `announce_proxy_instance`. -/
def OP_ANNOUNCE_PROXY_INSTANCE : Nat := 3

/-- Operation code of `kill_proxy_instance`. -/
def OP_KILL_PROXY_INSTANCE : Nat := 4

/-- Operation code of `heartbeat`. -/
def OP_HEARTBEAT : Nat := 5

/-- Modelled from the spec: the build-time protocol version constant
transmitted in the server handshake's `operation_data`. -/
def version : Nat := 2

/-- Modelled from the spec: the error code `no_route_to_destination`
carried in the `operation_data` of a `kill_proxy_instance` failure
reply (`error_code.hpp` is not part of the sources). -/
def no_route_to_destination : Nat := 1

/-- Modelled from the spec: maximal admissible `payload_len` (a u32
wire field). -/
def MAX_PAYLOAD : Nat := 2 ^ 32 - 1

/-- The fixed BASP header (spec §3): source/dest node, source/dest
actor, payload length, operation byte and operation data. -/
structure Header where
  source_node : NodeId
  dest_node : NodeId
  source_actor : ActorId
  dest_actor : ActorId
  payload_len : Nat
  operation : Nat
  operation_data : Nat
deriving DecidableEq

/-- Big-endian encoding of a 32-bit field (modelled from the spec:
network byte order binary codec). -/
def encU32 (n : Nat) : List Nat :=
  [n / 2 ^ 24 % 256, n / 2 ^ 16 % 256, n / 2 ^ 8 % 256, n % 256]

/-- Big-endian encoding of a 64-bit field. -/
def encU64 (n : Nat) : List Nat :=
  encU32 (n / 2 ^ 32) ++ encU32 (n % 2 ^ 32)

/-- Reassemble four bytes (big-endian) into a 32-bit value. -/
def decU32 (a b c d : Nat) : Nat :=
  ((a * 256 + b) * 256 + c) * 256 + d

/-- Reassemble eight bytes (big-endian) into a 64-bit value. -/
def decU64 (a b c d e f g h : Nat) : Nat :=
  decU32 a b c d * 2 ^ 32 + decU32 e f g h

/-- Header encoding, field order as in `operator<<(serializer, header)`:
`source_node, dest_node, source_actor, dest_actor, payload_len,
operation, operation_data` (spec §4.1). -/
def encodeHeader (h : Header) : List Nat :=
  encU32 h.source_node ++ encU32 h.dest_node ++ encU32 h.source_actor
    ++ encU32 h.dest_actor ++ encU32 h.payload_len ++ [h.operation % 256]
    ++ encU64 h.operation_data

/-- The fixed header size (`basp::header_size`): 4+4+4+4+4+1+8 bytes. -/
def hdrSize : Nat := 29

/-- Header decoding: reads exactly `hdrSize` leading bytes and ignores
the rest of the chunk; fails on a short chunk (spec §4.1,
`InvalidHeader`). -/
def decodeHeader : List Nat → Option Header
  | a0 :: a1 :: a2 :: a3 :: b0 :: b1 :: b2 :: b3 ::
    c0 :: c1 :: c2 :: c3 :: d0 :: d1 :: d2 :: d3 ::
    e0 :: e1 :: e2 :: e3 :: op ::
    f0 :: f1 :: f2 :: f3 :: f4 :: f5 :: f6 :: f7 :: _ =>
      some { source_node := decU32 a0 a1 a2 a3
             dest_node := decU32 b0 b1 b2 b3
             source_actor := decU32 c0 c1 c2 c3
             dest_actor := decU32 d0 d1 d2 d3
             payload_len := decU32 e0 e1 e2 e3
             operation := op
             operation_data := decU64 f0 f1 f2 f3 f4 f5 f6 f7 }
  | _ => none

theorem encU32_length (n : Nat) : (encU32 n).length = 4 := rfl

theorem encU64_length (n : Nat) : (encU64 n).length = 8 := rfl

theorem encodeHeader_length (h : Header) : (encodeHeader h).length = hdrSize := by
  simp [encodeHeader, encU32, encU64, hdrSize]

theorem decU32_encU32 (n : Nat) :
    decU32 (n / 2 ^ 24 % 256) (n / 2 ^ 16 % 256) (n / 2 ^ 8 % 256) (n % 256)
      = n % 2 ^ 32 := by
  simp only [decU32]
  omega

theorem decU64_encU64 (n : Nat) :
    decU32 (n / 2 ^ 32 / 2 ^ 24 % 256) (n / 2 ^ 32 / 2 ^ 16 % 256)
        (n / 2 ^ 32 / 2 ^ 8 % 256) (n / 2 ^ 32 % 256) * 2 ^ 32
      + decU32 (n % 2 ^ 32 / 2 ^ 24 % 256) (n % 2 ^ 32 / 2 ^ 16 % 256)
        (n % 2 ^ 32 / 2 ^ 8 % 256) (n % 2 ^ 32 % 256)
      = n % 2 ^ 64 := by
  rw [decU32_encU32, decU32_encU32]
  omega

/-- Decoding an encoded header (followed by arbitrary further bytes)
recovers every field reduced to its wire width. -/
theorem decodeHeader_encodeHeader (h : Header) (rest : List Nat) :
    decodeHeader (encodeHeader h ++ rest)
      = some { source_node := h.source_node % 2 ^ 32
               dest_node := h.dest_node % 2 ^ 32
               source_actor := h.source_actor % 2 ^ 32
               dest_actor := h.dest_actor % 2 ^ 32
               payload_len := h.payload_len % 2 ^ 32
               operation := h.operation % 256
               operation_data := h.operation_data % 2 ^ 64 } := by
  simp only [encodeHeader, encU32, encU64, List.cons_append, List.nil_append,
    decodeHeader, decU64]
  rw [decU32_encU32, decU32_encU32, decU32_encU32, decU32_encU32, decU32_encU32,
    decU64_encU64]

/-- Modelled from the spec (§4.2): the routing table.  `directByHdl`
is the direct map `ConnectionHandle → NodeId` (its inverse
`direct_by_node` is recovered by search, keeping the bijection by
construction); `indirect` maps a target node to the set of direct
next-hop peers, kept as a list. -/
structure RoutingTable where
  directByHdl : List (ConnHdl × NodeId)
  indirect : List (NodeId × List NodeId)
deriving DecidableEq

namespace RoutingTable

/-- Modelled from the spec: `lookup_direct(n) → ConnectionHandle | invalid`. -/
def lookupDirectByNode (t : RoutingTable) (n : NodeId) : ConnHdl :=
  match t.directByHdl.find? (fun e => e.2 == n) with
  | some e => e.1
  | none => invalid_connection_handle

/-- Modelled from the spec: `lookup_direct(h) → NodeId | invalid`. -/
def lookupDirectByHdl (t : RoutingTable) (h : ConnHdl) : NodeId :=
  match t.directByHdl.find? (fun e => e.1 == h) with
  | some e => e.2
  | none => invalid_node_id

/-- Modelled from the spec: `add_direct(h, n)`. -/
def addDirect (t : RoutingTable) (h : ConnHdl) (n : NodeId) : RoutingTable :=
  { t with directByHdl := (h, n) :: t.directByHdl }

/-- Modelled from the spec: `add_indirect(hop, n) → bool`, true iff `n`
was not previously reachable by any indirect route. -/
def addIndirect (t : RoutingTable) (hop n : NodeId) : RoutingTable × Bool :=
  match t.indirect.find? (fun e => e.1 == n) with
  | some e =>
      let hops' := if e.2.contains hop then e.2 else hop :: e.2
      ({ t with indirect := t.indirect.map (fun x => if x.1 == n then (n, hops') else x) },
       e.2.isEmpty)
  | none => ({ t with indirect := (n, [hop]) :: t.indirect }, true)

/-- Modelled from the spec: `erase_indirect(n) → bool`, true iff an
entry existed. -/
def eraseIndirect (t : RoutingTable) (n : NodeId) : RoutingTable × Bool :=
  ({ t with indirect := t.indirect.filter (fun e => e.1 != n) },
   t.indirect.any (fun e => e.1 == n))

/-- The result of a route lookup (spec §3): next hop node and the
connection handle whose write buffer carries the bytes. -/
structure Route where
  next_hop : NodeId
  hdl : ConnHdl
deriving DecidableEq

/-- Modelled from the spec: `lookup(n) → Option<Route>` — direct if
available, otherwise any indirect hop whose own direct lookup
succeeds. -/
def lookup (t : RoutingTable) (n : NodeId) : Option Route :=
  let h := lookupDirectByNode t n
  if h ≠ invalid_connection_handle then
    some ⟨n, h⟩
  else
    match t.indirect.find? (fun e => e.1 == n) with
    | some e =>
        match e.2.find? (fun hop => lookupDirectByNode t hop != invalid_connection_handle) with
        | some hop => some ⟨hop, lookupDirectByNode t hop⟩
        | none => none
    | none => none

/-- Modelled from the spec: `erase_direct(h, on_lost_node)` — removes
the direct entry for `h`, sweeps that node out of every indirect
next-hop set, and returns the list of nodes that became unreachable
(reported to `on_lost_node`). -/
def eraseDirect (t : RoutingTable) (h : ConnHdl) : RoutingTable × List NodeId :=
  match t.directByHdl.find? (fun e => e.1 == h) with
  | none => (t, [])
  | some e =>
      let n := e.2
      let direct' := t.directByHdl.filter (fun x => x.1 != h)
      let swept := t.indirect.map (fun x => (x.1, x.2.filter (fun hop => hop != n)))
      let lost := (swept.filter (fun x => x.2.isEmpty)).map (fun x => x.1)
      let t' : RoutingTable := ⟨direct', swept.filter (fun x => !x.2.isEmpty)⟩
      let selfLost := if (lookup t' n).isSome then [] else [n]
      (t', selfLost ++ lost)

end RoutingTable

/-- Callee upcalls and hook notifications emitted by the engine during
one call, in order of occurrence. -/
inductive Event where
  | purge_state : NodeId → Event
  | finalize_handshake : NodeId → ActorId → List (List Nat) → Event
  | learned_new_node_directly : NodeId → Bool → Event
  | learned_new_node_indirectly : NodeId → Event
  | deliver : NodeId → ActorId → NodeId → ActorId → Nat → List ActorAddr → List Nat → Event
  | proxy_announced : NodeId → ActorId → Event
  | kill_proxy : NodeId → ActorId → Nat → Event
  | heartbeat_received : NodeId → Event
  | flushed : ConnHdl → Event
  | hook_message_forwarded : Event
  | hook_message_forwarding_failed : Event
  | hook_message_sent : Event
  | hook_message_sending_failed : Event
deriving DecidableEq

/-- The per-connection receive state (spec §3). -/
inductive ConnectionState where
  | await_header
  | await_payload
  | close_connection
deriving DecidableEq

/-- The mutable state of a BASP `instance`: routing table, fixed local
node id, published-actor registry (`port → (actor, interface)`), and
the per-connection write buffers owned by the broker. -/
structure Instance where
  tbl : RoutingTable
  thisNode : NodeId
  published : List (Nat × ActorAddr × List (List Nat))
  bufs : List (ConnHdl × List Nat)
deriving DecidableEq

/-- The write buffer of a connection (empty when never written). -/
def getBuf (s : Instance) (h : ConnHdl) : List Nat :=
  ((s.bufs.find? (fun e => e.1 == h)).map (fun e => e.2)).getD []

/-- Append bytes to the write buffer of connection `h`. -/
def appendBuf (s : Instance) (h : ConnHdl) (bs : List Nat) : Instance :=
  if s.bufs.any (fun e => e.1 == h) then
    { s with bufs := s.bufs.map (fun e => if e.1 == h then (e.1, e.2 ++ bs) else e) }
  else
    { s with bufs := s.bufs ++ [(h, bs)] }

theorem appendBuf_tbl (s : Instance) (h : ConnHdl) (bs : List Nat) :
    (appendBuf s h bs).tbl = s.tbl := by
  unfold appendBuf
  split <;> rfl

theorem appendBuf_published (s : Instance) (h : ConnHdl) (bs : List Nat) :
    (appendBuf s h bs).published = s.published := by
  unfold appendBuf
  split <;> rfl

theorem find?_map_update (l : List (ConnHdl × List Nat)) (h : ConnHdl) (bs : List Nat) :
    (l.map (fun e => if e.1 == h then (e.1, e.2 ++ bs) else e)).find? (fun e => e.1 == h)
      = (l.find? (fun e => e.1 == h)).map (fun e => (e.1, e.2 ++ bs)) := by
  induction l with
  | nil => rfl
  | cons e rest ih =>
      by_cases he : (e.1 == h) = true
      · simp [List.find?, he]
      · simp only [Bool.not_eq_true] at he
        simp [List.find?, he, -List.find?_map] at ih ⊢
        exact ih

theorem getBuf_appendBuf_same (s : Instance) (h : ConnHdl) (bs : List Nat) :
    getBuf (appendBuf s h bs) h = getBuf s h ++ bs := by
  unfold getBuf appendBuf
  by_cases hany : (s.bufs.any fun e => e.1 == h) = true
  · rw [if_pos hany]
    show ((((s.bufs.map fun e => if e.1 == h then (e.1, e.2 ++ bs) else e).find?
        fun e => e.1 == h).map fun e => e.2).getD []) = _
    rw [find?_map_update]
    cases hfind : s.bufs.find? (fun e => e.1 == h) with
    | some e => simp
    | none =>
        exfalso
        rw [List.find?_eq_none] at hfind
        obtain ⟨e, hmem, hpred⟩ := List.any_eq_true.1 hany
        exact hfind e hmem hpred
  · rw [if_neg hany]
    have hfind : s.bufs.find? (fun e => e.1 == h) = none := by
      rw [List.find?_eq_none]
      intro e hmem hpred
      exact hany (List.any_eq_true.2 ⟨e, hmem, hpred⟩)
    show ((((s.bufs ++ [(h, bs)]).find? fun e => e.1 == h).map fun e => e.2).getD []) = _
    rw [List.find?_append, hfind]
    simp [List.find?]

/-- Overwrite `bytes.length` positions of `buf` starting at `pos`
(in-place write at a prior offset, as done by the back-patching
serializer `bs2` in `instance::write`). -/
def writeAt (buf : List Nat) (pos : Nat) (bytes : List Nat) : List Nat :=
  buf.take pos ++ bytes ++ buf.drop (pos + bytes.length)

/-- `instance::write` (the 10-argument overload): without a payload
writer, append the header with `payload_len = 0`; with a writer,
reserve `hdrSize` placeholder bytes, append the payload bytes, then
back-patch the header with `payload_len =` number of bytes written.
Returns the new buffer and the written `payload_len`. -/
def instWrite (buf : List Nat) (operation operation_data : Nat)
    (source_node dest_node : NodeId) (source_actor dest_actor : ActorId)
    (pw : Option (List Nat)) : List Nat × Nat :=
  match pw with
  | none =>
      (buf ++ encodeHeader ⟨source_node, dest_node, source_actor, dest_actor,
        0, operation, operation_data⟩, 0)
  | some w =>
      let wrPos := buf.length
      let buf1 := buf ++ List.replicate hdrSize 0
      let plPos := buf1.length
      let buf2 := buf1 ++ w
      let plen := buf2.length - plPos
      (writeAt buf2 wrPos (encodeHeader ⟨source_node, dest_node, source_actor,
        dest_actor, plen, operation, operation_data⟩), plen)

theorem instWrite_none (buf : List Nat) (op od sn dn sa da : Nat) :
    instWrite buf op od sn dn sa da none
      = (buf ++ encodeHeader ⟨sn, dn, sa, da, 0, op, od⟩, 0) := rfl

/-- The two-pass assembly is equivalent to appending the header (with
the final payload length) followed by the payload bytes. -/
theorem instWrite_some (buf : List Nat) (op od sn dn sa da : Nat) (w : List Nat) :
    instWrite buf op od sn dn sa da (some w)
      = (buf ++ encodeHeader ⟨sn, dn, sa, da, w.length, op, od⟩ ++ w, w.length) := by
  have hplen : (buf ++ List.replicate hdrSize 0 ++ w).length
      - (buf ++ List.replicate hdrSize 0).length = w.length := by
    simp
    omega
  simp only [instWrite, writeAt, hplen]
  have htake : (buf ++ List.replicate hdrSize 0 ++ w).take buf.length = buf := by
    rw [List.append_assoc, List.take_left]
  have hdrop : (buf ++ List.replicate hdrSize 0 ++ w).drop
      (buf.length + (encodeHeader ⟨sn, dn, sa, da, w.length, op, od⟩).length) = w := by
    rw [encodeHeader_length]
    have hlen : buf.length + hdrSize = (buf ++ List.replicate hdrSize 0).length := by
      simp
    rw [hlen, List.drop_left]
  rw [htake, hdrop]

/-- The frame bytes a writer appends to an empty buffer. -/
def writeFrame (op od sn dn sa da : Nat) (pw : Option (List Nat)) : List Nat :=
  (instWrite [] op od sn dn sa da pw).1

theorem writeFrame_some (op od sn dn sa da : Nat) (w : List Nat) :
    writeFrame op od sn dn sa da (some w)
      = encodeHeader ⟨sn, dn, sa, da, w.length, op, od⟩ ++ w := by
  unfold writeFrame
  rw [instWrite_some]
  rfl

theorem writeFrame_none (op od sn dn sa da : Nat) :
    writeFrame op od sn dn sa da none
      = encodeHeader ⟨sn, dn, sa, da, 0, op, od⟩ := by
  unfold writeFrame
  rw [instWrite_none]
  rfl

/-- Read a 32-bit big-endian field from the head of a byte list
(missing bytes read as zero). -/
def readU32 (l : List Nat) : Nat :=
  decU32 (l.getD 0 0) (l.getD 1 0) (l.getD 2 0) (l.getD 3 0)

/-- Modelled from the spec (§4.3): decode `count` length-prefixed
strings (signature set elements, each a byte list). -/
def decodeSigs : Nat → List Nat → List (List Nat)
  | 0, _ => []
  | k + 1, l =>
      let len := readU32 l
      ((l.drop 4).take len) :: decodeSigs k (l.drop (4 + len))

/-- Modelled from the spec (§4.3): decode the `server_handshake`
payload `(published_actor_id, interfaces)`.  Total; malformed trailing
data decodes to defaults, as the codec is only ever applied to frames
whose length was already validated. -/
def decodeHandshakePayload (l : List Nat) : ActorId × List (List Nat) :=
  (readU32 l, decodeSigs (readU32 (l.drop 4)) (l.drop 8))

/-- Modelled from the spec (§4.3): decode `count` actor addresses
(node id and actor id, 32-bit fields each). -/
def decodeAddrs : Nat → List Nat → List ActorAddr × List Nat
  | 0, l => ([], l)
  | k + 1, l =>
      let a : ActorAddr := ⟨readU32 l, readU32 (l.drop 4)⟩
      let r := decodeAddrs k (l.drop 8)
      (a :: r.1, r.2)

/-- Modelled from the spec (§4.3): decode the `dispatch_message`
payload `(forwarding_stack, message)`; the message stays opaque bytes. -/
def decodeDispatchPayload (l : List Nat) : List ActorAddr × List Nat :=
  let r := decodeAddrs (readU32 l) (l.drop 4)
  (r.1, r.2)

/-- Modelled from the spec (§4.3): encode the `dispatch_message`
payload `(forwarding_stack, message)` written by `dispatch`'s payload
writer (`sink << forwarding_stack << msg`). -/
def encodeDispatchPayload (fwd : List ActorAddr) (msg : List Nat) : List Nat :=
  encU32 fwd.length ++ fwd.foldr (fun a acc => encU32 a.node ++ encU32 a.id ++ acc) [] ++ msg

/-- `instance::write_client_handshake`: a `client_handshake` frame with
empty payload, `source_node =` local node, `dest_node = remote_side`. -/
def writeClientHandshakeBytes (thisN remote : NodeId) : List Nat :=
  writeFrame OP_CLIENT_HANDSHAKE 0 thisN remote invalid_actor_id invalid_actor_id none

/-- `instance::write_dispatch_error`: a `kill_proxy_instance` frame
whose `operation_data` is the error code and whose payload is the
original header followed by the original payload bytes (absent when the
original frame had none). -/
def writeDispatchErrorBytes (source_node dest_node ec : Nat) (original_hdr : Header)
    (payload : Option (List Nat)) : List Nat :=
  writeFrame OP_KILL_PROXY_INSTANCE ec source_node dest_node
    invalid_actor_id invalid_actor_id
    (some (encodeHeader original_hdr ++ payload.getD []))

/-- `instance::write_kill_proxy_instance`: empty payload,
`operation_data = static_cast<uint32_t>(reason)` (the C++ narrows the
exit reason through 32 bits before it lands in the 64-bit field),
`source_actor = aid`. -/
def writeKillProxyInstance (thisN : NodeId) (buf : List Nat) (dest_node : NodeId)
    (aid : ActorId) (rsn : Nat) : List Nat :=
  (instWrite buf OP_KILL_PROXY_INSTANCE (rsn % 2 ^ 32) thisN dest_node
    aid invalid_actor_id none).1

/-- `basp::is_handshake(hdr)`: the two handshake operations.
Modelled from the spec (declared outside the given source file). -/
def isHandshake (hdr : Header) : Bool :=
  hdr.operation == OP_SERVER_HANDSHAKE || hdr.operation == OP_CLIENT_HANDSHAKE

/-- `basp::is_heartbeat(hdr)`.  Modelled from the spec. -/
def isHeartbeat (hdr : Header) : Bool :=
  hdr.operation == OP_HEARTBEAT

/-- Modelled from the spec (§4.1): `valid(hdr)` — known operation,
`server_handshake` carries the version in `operation_data`,
`heartbeat` has no payload, and `payload_len` is bounded. -/
def valid (hdr : Header) : Bool :=
  hdr.operation ≤ OP_HEARTBEAT
    && (hdr.operation != OP_SERVER_HANDSHAKE || hdr.operation_data == version)
    && (hdr.operation != OP_HEARTBEAT || hdr.payload_len == 0)
    && hdr.payload_len ≤ MAX_PAYLOAD

/-- The `err` cleanup closure of `instance::handle`: run
`tbl_.erase_direct(dm.handle, cb)` where `cb` forwards every lost node
to `callee_.purge_state`. -/
def errStep (s : Instance) (c : ConnHdl) : Instance × List Event :=
  let r := RoutingTable.eraseDirect s.tbl c
  ({ s with tbl := r.1 }, r.2.map Event.purge_state)

/-- The outcome of one `handle` call: connection state, updated
instance, updated per-connection header slot, emitted upcalls/hooks. -/
structure HandleResult where
  cs : ConnectionState
  inst : Instance
  hdr : Header
  events : List Event
deriving DecidableEq

/-- `payload_valid()` inside `instance::handle`. -/
def payloadValid (hdr : Header) (payload : Option (List Nat)) : Bool :=
  payload.isSome && (payload.getD []).length == hdr.payload_len

/-- The `server_handshake` case of `instance::handle`'s switch. -/
def serverHandshakeStep (s : Instance) (c : ConnHdl) (hdr : Header)
    (payload : Option (List Nat)) : HandleResult :=
  let dec :=
    if payloadValid hdr payload then decodeHandshakePayload (payload.getD [])
    else (invalid_actor_id, [])
  let aid := dec.1
  let sigs := dec.2
  if hdr.source_node = s.thisNode then
    -- close self connection after handshake is done
    let e := errStep s c
    ⟨ConnectionState.close_connection, e.1, hdr,
      Event.finalize_handshake hdr.source_node aid sigs :: e.2⟩
  else if RoutingTable.lookupDirectByNode s.tbl hdr.source_node
      ≠ invalid_connection_handle then
    -- close this connection: we already have a direct connection
    let e := errStep s c
    ⟨ConnectionState.close_connection, e.1, hdr,
      Event.finalize_handshake hdr.source_node aid sigs :: e.2⟩
  else
    -- add direct route to this node and remove any indirect entry
    let t1 := RoutingTable.addDirect s.tbl c hdr.source_node
    let ei := RoutingTable.eraseIndirect t1 hdr.source_node
    let s1 : Instance := { s with tbl := ei.1 }
    match RoutingTable.lookup ei.1 hdr.source_node with
    | none =>
        -- no route to host after server handshake
        let e := errStep s1 c
        ⟨ConnectionState.close_connection, e.1, hdr, e.2⟩
    | some path =>
        let s2 := appendBuf s1 path.hdl (writeClientHandshakeBytes s.thisNode hdr.source_node)
        ⟨ConnectionState.await_header, s2, hdr,
          [Event.learned_new_node_directly hdr.source_node ei.2,
           Event.finalize_handshake hdr.source_node aid sigs,
           Event.flushed path.hdl]⟩

/-- The `client_handshake` case of `instance::handle`'s switch. -/
def clientHandshakeStep (s : Instance) (c : ConnHdl) (hdr : Header) : HandleResult :=
  if RoutingTable.lookupDirectByNode s.tbl hdr.source_node
      ≠ invalid_connection_handle then
    -- received second client handshake: ignore
    ⟨ConnectionState.await_header, s, hdr, []⟩
  else
    let t1 := RoutingTable.addDirect s.tbl c hdr.source_node
    let ei := RoutingTable.eraseIndirect t1 hdr.source_node
    ⟨ConnectionState.await_header, { s with tbl := ei.1 }, hdr,
      [Event.learned_new_node_directly hdr.source_node ei.2]⟩

/-- The `dispatch_message` case of `instance::handle`'s switch. -/
def dispatchMessageStep (s : Instance) (c : ConnHdl) (hdr : Header)
    (payload : Option (List Nat)) : HandleResult :=
  if ¬ payloadValid hdr payload then
    let e := errStep s c
    ⟨ConnectionState.close_connection, e.1, hdr, e.2⟩
  else
    let pl := payload.getD []
    let lastHop := RoutingTable.lookupDirectByHdl s.tbl c
    let d := decodeDispatchPayload pl
    let deliverEv := Event.deliver hdr.source_node hdr.source_actor
      hdr.dest_node hdr.dest_actor hdr.operation_data d.1 d.2
    if hdr.source_node ≠ invalid_node_id
        ∧ hdr.source_node ≠ s.thisNode
        ∧ lastHop ≠ hdr.source_node
        ∧ RoutingTable.lookupDirectByNode s.tbl hdr.source_node
            = invalid_connection_handle then
      let ai := RoutingTable.addIndirect s.tbl lastHop hdr.source_node
      ⟨ConnectionState.await_header, { s with tbl := ai.1 }, hdr,
        (if ai.2 then [Event.learned_new_node_indirectly hdr.source_node] else [])
          ++ [deliverEv]⟩
    else
      ⟨ConnectionState.await_header, s, hdr, [deliverEv]⟩

/-- Frame processing after the receive phases of `instance::handle`
(source lines 78-205): the forwarding decision followed by the local
dispatch switch on `hdr.operation`. -/
def processFrame (s : Instance) (c : ConnHdl) (hdr : Header)
    (payload : Option (List Nat)) : HandleResult :=
  if isHandshake hdr = false ∧ isHeartbeat hdr = false
      ∧ hdr.dest_node ≠ s.thisNode then
    -- needs forwarding
    match RoutingTable.lookup s.tbl hdr.dest_node with
    | some path =>
        let s1 := appendBuf s path.hdl (encodeHeader hdr ++ payload.getD [])
        ⟨ConnectionState.await_header, s1, hdr,
          [Event.flushed path.hdl, Event.hook_message_forwarded]⟩
    | none =>
        if hdr.source_node ≠ s.thisNode then
          match RoutingTable.lookup s.tbl hdr.source_node with
          | some rev =>
              let s1 := appendBuf s rev.hdl
                (writeDispatchErrorBytes s.thisNode hdr.source_node
                  no_route_to_destination hdr payload)
              ⟨ConnectionState.await_header, s1, hdr,
                [Event.hook_message_forwarding_failed]⟩
          | none =>
              -- cannot send error message: no route to source
              ⟨ConnectionState.await_header, s, hdr,
                [Event.hook_message_forwarding_failed]⟩
        else
          -- lost packet with probably spoofed source
          ⟨ConnectionState.await_header, s, hdr,
            [Event.hook_message_forwarding_failed]⟩
  else if hdr.operation = OP_SERVER_HANDSHAKE then
    serverHandshakeStep s c hdr payload
  else if hdr.operation = OP_CLIENT_HANDSHAKE then
    clientHandshakeStep s c hdr
  else if hdr.operation = OP_DISPATCH_MESSAGE then
    dispatchMessageStep s c hdr payload
  else if hdr.operation = OP_ANNOUNCE_PROXY_INSTANCE then
    ⟨ConnectionState.await_header, s, hdr,
      [Event.proxy_announced hdr.source_node hdr.dest_actor]⟩
  else if hdr.operation = OP_KILL_PROXY_INSTANCE then
    ⟨ConnectionState.await_header, s, hdr,
      [Event.kill_proxy hdr.source_node hdr.source_actor hdr.operation_data]⟩
  else if hdr.operation = OP_HEARTBEAT then
    ⟨ConnectionState.await_header, s, hdr,
      [Event.heartbeat_received hdr.source_node]⟩
  else
    -- invalid operation
    let e := errStep s c
    ⟨ConnectionState.close_connection, e.1, hdr, e.2⟩

/-- `instance::handle(ctx, dm, hdr, is_payload)`: payload-phase length
check, or header decode/validation with transition to `await_payload`,
then frame processing. -/
def handle (s : Instance) (c : ConnHdl) (buf : List Nat) (hdrSlot : Header)
    (isPayload : Bool) : HandleResult :=
  if isPayload then
    if buf.length ≠ hdrSlot.payload_len then
      let e := errStep s c
      ⟨ConnectionState.close_connection, e.1, hdrSlot, e.2⟩
    else
      processFrame s c hdrSlot (some buf)
  else
    match decodeHeader buf with
    | none =>
        let e := errStep s c
        ⟨ConnectionState.close_connection, e.1, hdrSlot, e.2⟩
    | some h =>
        if valid h = false then
          let e := errStep s c
          ⟨ConnectionState.close_connection, e.1, h, e.2⟩
        else if h.payload_len > 0 then
          ⟨ConnectionState.await_payload, s, h, []⟩
        else
          processFrame s c h none

/-- `instance::dispatch(ctx, sender, forwarding_stack, receiver, mid,
msg)`: route lookup, then a `dispatch_message` frame with
`operation_data = mid` and payload `(forwarding_stack, msg)`. -/
def dispatch (s : Instance) (sender : Option ActorAddr) (fwd : List ActorAddr)
    (receiver : ActorAddr) (mid : Nat) (msg : List Nat) :
    Bool × Instance × List Event :=
  match RoutingTable.lookup s.tbl receiver.node with
  | none => (false, s, [Event.hook_message_sending_failed])
  | some path =>
      let frame := writeFrame OP_DISPATCH_MESSAGE mid
        (match sender with | some a => a.node | none => s.thisNode)
        receiver.node
        (match sender with | some a => a.id | none => invalid_actor_id)
        receiver.id
        (some (encodeDispatchPayload fwd msg))
      (true, appendBuf s path.hdl frame,
       [Event.flushed path.hdl, Event.hook_message_sent])

/-- One entry of the published-actor registry:
`(port, actor, interface)`. -/
abbrev PubEntry := Nat × ActorAddr × List (List Nat)

/-- The `port == 0` loop of `remove_published_actor(whom, port, cb)`:
erase every entry whose actor equals `whom`, invoking the callback
with `(whom, entry.port)` for each erased entry, in iteration order. -/
def removeAllFor (whom : ActorAddr) : List PubEntry →
    List PubEntry × Nat × List (ActorAddr × Nat)
  | [] => ([], 0, [])
  | e :: rest =>
      let r := removeAllFor whom rest
      if e.2.1 = whom then (r.1, r.2.1 + 1, (whom, e.1) :: r.2.2)
      else (e :: r.1, r.2.1, r.2.2)

/-- `instance::remove_published_actor(whom, port, cb)` (the
three-argument overload): with a nonzero port, remove the entry at that
port only when its actor equals `whom`; with port 0, remove every entry
whose actor equals `whom`.  Returns the new registry, the removal
count, and the callback invocations in order. -/
def removePublishedActorBy (pas : List PubEntry) (whom : ActorAddr) (port : Nat) :
    List PubEntry × Nat × List (ActorAddr × Nat) :=
  if port ≠ 0 then
    match pas.find? (fun e => e.1 == port) with
    | some e =>
        if e.2.1 = whom then
          (pas.eraseP (fun x => x.1 == port), 1, [(whom, port)])
        else (pas, 0, [])
    | none => (pas, 0, [])
  else
    removeAllFor whom pas

theorem eraseDirect_lookupHdl (t : RoutingTable) (c : ConnHdl) :
    RoutingTable.lookupDirectByHdl (RoutingTable.eraseDirect t c).1 c
      = invalid_node_id := by
  unfold RoutingTable.eraseDirect
  cases hfind : t.directByHdl.find? (fun e => e.1 == c) with
  | none =>
      simp [RoutingTable.lookupDirectByHdl, hfind]
  | some e =>
      have hnone : (t.directByHdl.filter (fun x => x.1 != c)).find?
          (fun e => e.1 == c) = none := by
        rw [List.find?_eq_none]
        intro x hx
        have := (List.mem_filter.1 hx).2
        simp only [bne_iff_ne, ne_eq, decide_eq_true_eq] at this
        simp [this]
      simp [RoutingTable.lookupDirectByHdl, hnone]

theorem eraseDirect_direct_subset (t : RoutingTable) (c : ConnHdl) :
    ∀ e ∈ (RoutingTable.eraseDirect t c).1.directByHdl, e ∈ t.directByHdl := by
  unfold RoutingTable.eraseDirect
  cases hfind : t.directByHdl.find? (fun e => e.1 == c) with
  | none => intro e he; exact he
  | some e => intro x hx; exact (List.mem_filter.1 hx).1

theorem lookup_after_addDirect (t : RoutingTable) (c : ConnHdl) (n : NodeId)
    (hc : c ≠ invalid_connection_handle) :
    RoutingTable.lookup
      (RoutingTable.eraseIndirect (RoutingTable.addDirect t c n) n).1 n
      = some ⟨n, c⟩ := by
  have hdn : RoutingTable.lookupDirectByNode
      (RoutingTable.eraseIndirect (RoutingTable.addDirect t c n) n).1 n = c := by
    simp [RoutingTable.lookupDirectByNode, RoutingTable.eraseIndirect,
      RoutingTable.addDirect, List.find?]
  unfold RoutingTable.lookup
  rw [hdn, if_pos hc]

theorem countP_purge_states (l : List NodeId) (p : Event → Bool)
    (hp : ∀ n, p (Event.purge_state n) = false) :
    (l.map Event.purge_state).countP p = 0 := by
  induction l with
  | nil => rfl
  | cons n rest ih => simp [List.countP_cons, hp, ih]

/-- C10: whenever `handle` takes the forwarding branch (the frame is
neither a handshake nor a heartbeat and `dest_node` differs from the
local node — i.e. whenever the frame-processing stage of `handle` runs
on such a frame, from either receive phase), the routing table and the
published-actor registry are left unchanged, whether forwarding
succeeds or fails. -/
theorem forwarding_branch_preserves_tables (s : Instance) (c : ConnHdl)
    (hdr : Header) (payload : Option (List Nat))
    (hhs : isHandshake hdr = false) (hhb : isHeartbeat hdr = false)
    (hdest : hdr.dest_node ≠ s.thisNode) :
    (processFrame s c hdr payload).inst.tbl = s.tbl
      ∧ (processFrame s c hdr payload).inst.published = s.published := by
  unfold processFrame
  rw [if_pos ⟨hhs, hhb, hdest⟩]
  cases hl : RoutingTable.lookup s.tbl hdr.dest_node with
  | some path => exact ⟨appendBuf_tbl .., appendBuf_published ..⟩
  | none =>
      by_cases hsrc : hdr.source_node ≠ s.thisNode
      · rw [if_pos hsrc]
        cases hr : RoutingTable.lookup s.tbl hdr.source_node with
        | some rev => exact ⟨appendBuf_tbl .., appendBuf_published ..⟩
        | none => exact ⟨rfl, rfl⟩
      · rw [if_neg hsrc]
        exact ⟨rfl, rfl⟩

theorem forwarding_branch_preserves_tables_witness :
    (isHandshake ⟨10, 50, 7, 8, 2, OP_DISPATCH_MESSAGE, 77⟩ = false
        ∧ isHeartbeat ⟨10, 50, 7, 8, 2, OP_DISPATCH_MESSAGE, 77⟩ = false
        ∧ (Header.dest_node ⟨10, 50, 7, 8, 2, OP_DISPATCH_MESSAGE, 77⟩)
            ≠ Instance.thisNode ⟨⟨[(1, 10)], []⟩, 99, [], []⟩)
      ∧ ((processFrame ⟨⟨[(1, 10)], []⟩, 99, [], []⟩ 1
            ⟨10, 50, 7, 8, 2, OP_DISPATCH_MESSAGE, 77⟩ (some [1, 2])).inst.tbl
            = Instance.tbl ⟨⟨[(1, 10)], []⟩, 99, [], []⟩
          ∧ (processFrame ⟨⟨[(1, 10)], []⟩, 99, [], []⟩ 1
            ⟨10, 50, 7, 8, 2, OP_DISPATCH_MESSAGE, 77⟩ (some [1, 2])).inst.published
            = Instance.published ⟨⟨[(1, 10)], []⟩, 99, [], []⟩) :=
  ⟨⟨by decide, by decide, by decide⟩,
   forwarding_branch_preserves_tables ⟨⟨[(1, 10)], []⟩, 99, [], []⟩ 1
     ⟨10, 50, 7, 8, 2, OP_DISPATCH_MESSAGE, 77⟩ (some [1, 2])
     (by decide) (by decide) (by decide)⟩

/-- C1: on a non-handshake, non-heartbeat frame addressed to another
node, with no route to the destination, a foreign source, and a reverse
route to the source, `handle` appends to the reverse route's write
buffer a `kill_proxy_instance` frame whose `operation_data` is
`no_route_to_destination` and whose payload is the original header
bytes followed by the original payload bytes, and returns
`await_header`. -/
theorem handle_no_route_writes_dispatch_error (s : Instance) (c : ConnHdl)
    (buf : List Nat) (hdr : Header) (rev : RoutingTable.Route)
    (hlen : buf.length = hdr.payload_len)
    (hhs : isHandshake hdr = false) (hhb : isHeartbeat hdr = false)
    (hdest : hdr.dest_node ≠ s.thisNode)
    (hroute : RoutingTable.lookup s.tbl hdr.dest_node = none)
    (hsrc : hdr.source_node ≠ s.thisNode)
    (hrev : RoutingTable.lookup s.tbl hdr.source_node = some rev) :
    (handle s c buf hdr true).cs = ConnectionState.await_header
      ∧ getBuf (handle s c buf hdr true).inst rev.hdl
          = getBuf s rev.hdl
            ++ encodeHeader ⟨s.thisNode, hdr.source_node, invalid_actor_id,
                 invalid_actor_id, (encodeHeader hdr ++ buf).length,
                 OP_KILL_PROXY_INSTANCE, no_route_to_destination⟩
            ++ (encodeHeader hdr ++ buf) := by
  have hstep : handle s c buf hdr true = processFrame s c hdr (some buf) := by
    unfold handle
    rw [if_pos rfl, if_neg (by simp [hlen])]
  rw [hstep]
  unfold processFrame
  rw [if_pos ⟨hhs, hhb, hdest⟩, hroute, if_pos hsrc, hrev]
  refine ⟨rfl, ?_⟩
  show getBuf (appendBuf s rev.hdl
    (writeDispatchErrorBytes s.thisNode hdr.source_node
      no_route_to_destination hdr (some buf))) rev.hdl = _
  rw [getBuf_appendBuf_same]
  unfold writeDispatchErrorBytes
  rw [writeFrame_some]
  simp [List.append_assoc]

theorem handle_no_route_writes_dispatch_error_witness :
    (List.length [1, 2] = Header.payload_len ⟨10, 50, 7, 8, 2, OP_DISPATCH_MESSAGE, 77⟩
        ∧ isHandshake ⟨10, 50, 7, 8, 2, OP_DISPATCH_MESSAGE, 77⟩ = false
        ∧ isHeartbeat ⟨10, 50, 7, 8, 2, OP_DISPATCH_MESSAGE, 77⟩ = false
        ∧ RoutingTable.lookup (RoutingTable.mk [(1, 10)] []) 50 = none
        ∧ RoutingTable.lookup (RoutingTable.mk [(1, 10)] []) 10
            = some ⟨10, 1⟩)
      ∧ ((handle ⟨⟨[(1, 10)], []⟩, 99, [], []⟩ 1 [1, 2]
            ⟨10, 50, 7, 8, 2, OP_DISPATCH_MESSAGE, 77⟩ true).cs
            = ConnectionState.await_header
          ∧ getBuf (handle ⟨⟨[(1, 10)], []⟩, 99, [], []⟩ 1 [1, 2]
              ⟨10, 50, 7, 8, 2, OP_DISPATCH_MESSAGE, 77⟩ true).inst
              (RoutingTable.Route.hdl ⟨10, 1⟩)
            = getBuf ⟨⟨[(1, 10)], []⟩, 99, [], []⟩ (RoutingTable.Route.hdl ⟨10, 1⟩)
              ++ encodeHeader ⟨99, 10, invalid_actor_id, invalid_actor_id,
                   (encodeHeader ⟨10, 50, 7, 8, 2, OP_DISPATCH_MESSAGE, 77⟩
                     ++ [1, 2]).length,
                   OP_KILL_PROXY_INSTANCE, no_route_to_destination⟩
              ++ (encodeHeader ⟨10, 50, 7, 8, 2, OP_DISPATCH_MESSAGE, 77⟩ ++ [1, 2])) :=
  ⟨⟨by decide, by decide, by decide, by decide, by decide⟩,
   handle_no_route_writes_dispatch_error ⟨⟨[(1, 10)], []⟩, 99, [], []⟩ 1 [1, 2]
     ⟨10, 50, 7, 8, 2, OP_DISPATCH_MESSAGE, 77⟩ ⟨10, 1⟩
     (by decide) (by decide) (by decide) (by decide) (by decide) (by decide)
     (by decide)⟩

/-- Recognizer for `finalize_handshake` upcalls, used to count them. -/
def isFinalizeEvent : Event → Bool
  | Event.finalize_handshake _ _ _ => true
  | _ => false

/-- A `server_handshake` frame (with its payload received) is not
subject to forwarding and enters the switch's first case. -/
theorem handle_server_handshake_step (s : Instance) (c : ConnHdl)
    (buf : List Nat) (hdr : Header)
    (hlen : buf.length = hdr.payload_len)
    (hop : hdr.operation = OP_SERVER_HANDSHAKE) :
    handle s c buf hdr true = serverHandshakeStep s c hdr (some buf) := by
  unfold handle
  rw [if_pos rfl, if_neg (by simp [hlen])]
  unfold processFrame
  rw [if_neg (by simp [isHandshake, hop]), if_pos hop]

/-- C2: a `server_handshake` from a peer that already has a direct
route adds no direct entry, runs the `erase_direct` cleanup, finalizes
the handshake exactly once with the decoded payload, and closes the
connection. -/
theorem server_handshake_dedup (s : Instance) (c : ConnHdl)
    (buf : List Nat) (hdr : Header)
    (hlen : buf.length = hdr.payload_len)
    (hop : hdr.operation = OP_SERVER_HANDSHAKE)
    (hsrc : hdr.source_node ≠ s.thisNode)
    (hdup : RoutingTable.lookupDirectByNode s.tbl hdr.source_node
      ≠ invalid_connection_handle) :
    (handle s c buf hdr true).cs = ConnectionState.close_connection
      ∧ (handle s c buf hdr true).inst.tbl = (RoutingTable.eraseDirect s.tbl c).1
      ∧ (∀ e ∈ (handle s c buf hdr true).inst.tbl.directByHdl, e ∈ s.tbl.directByHdl)
      ∧ (handle s c buf hdr true).events
          = Event.finalize_handshake hdr.source_node
              (decodeHandshakePayload buf).1 (decodeHandshakePayload buf).2
            :: (RoutingTable.eraseDirect s.tbl c).2.map Event.purge_state
      ∧ (handle s c buf hdr true).events.countP isFinalizeEvent = 1 := by
  rw [handle_server_handshake_step s c buf hdr hlen hop]
  have hpv : payloadValid hdr (some buf) = true := by
    simp [payloadValid, hlen]
  unfold serverHandshakeStep
  rw [if_neg hsrc, if_pos hdup]
  refine ⟨by simp, by simp [errStep], ?_, by simp [hpv, errStep], ?_⟩
  · exact eraseDirect_direct_subset s.tbl c
  · simp [hpv, errStep, isFinalizeEvent, List.countP_cons]

theorem server_handshake_dedup_witness :
    (List.length ([] : List Nat)
        = Header.payload_len ⟨10, 99, 0, 0, 0, OP_SERVER_HANDSHAKE, version⟩
      ∧ RoutingTable.lookupDirectByNode (RoutingTable.mk [(1, 10)] []) 10
          ≠ invalid_connection_handle)
      ∧ ((handle ⟨⟨[(1, 10)], []⟩, 99, [], []⟩ 2 []
            ⟨10, 99, 0, 0, 0, OP_SERVER_HANDSHAKE, version⟩ true).cs
            = ConnectionState.close_connection
          ∧ (handle ⟨⟨[(1, 10)], []⟩, 99, [], []⟩ 2 []
              ⟨10, 99, 0, 0, 0, OP_SERVER_HANDSHAKE, version⟩ true).inst.tbl
            = (RoutingTable.eraseDirect (RoutingTable.mk [(1, 10)] []) 2).1
          ∧ (∀ e ∈ (handle ⟨⟨[(1, 10)], []⟩, 99, [], []⟩ 2 []
              ⟨10, 99, 0, 0, 0, OP_SERVER_HANDSHAKE, version⟩ true).inst.tbl.directByHdl,
              e ∈ RoutingTable.directByHdl (RoutingTable.mk [(1, 10)] []))
          ∧ (handle ⟨⟨[(1, 10)], []⟩, 99, [], []⟩ 2 []
              ⟨10, 99, 0, 0, 0, OP_SERVER_HANDSHAKE, version⟩ true).events
            = Event.finalize_handshake 10 (decodeHandshakePayload []).1
                (decodeHandshakePayload []).2
              :: (RoutingTable.eraseDirect (RoutingTable.mk [(1, 10)] []) 2).2.map
                Event.purge_state
          ∧ (handle ⟨⟨[(1, 10)], []⟩, 99, [], []⟩ 2 []
              ⟨10, 99, 0, 0, 0, OP_SERVER_HANDSHAKE, version⟩ true).events.countP
              isFinalizeEvent = 1) :=
  ⟨⟨by decide, by decide⟩,
   server_handshake_dedup ⟨⟨[(1, 10)], []⟩, 99, [], []⟩ 2 []
     ⟨10, 99, 0, 0, 0, OP_SERVER_HANDSHAKE, version⟩
     (by decide) (by decide) (by decide) (by decide)⟩

/-- C3: a `server_handshake` frame reaching the switch triggers
`finalize_handshake` exactly once, in every branch (self connection,
duplicate connection, or new direct route). -/
theorem server_handshake_finalize_once (s : Instance) (c : ConnHdl)
    (buf : List Nat) (hdr : Header)
    (hc : c ≠ invalid_connection_handle)
    (hlen : buf.length = hdr.payload_len)
    (hop : hdr.operation = OP_SERVER_HANDSHAKE) :
    (handle s c buf hdr true).events.countP isFinalizeEvent = 1 := by
  rw [handle_server_handshake_step s c buf hdr hlen hop]
  unfold serverHandshakeStep
  by_cases hself : hdr.source_node = s.thisNode
  · rw [if_pos hself]
    simp [List.countP_cons, isFinalizeEvent, errStep]
  · rw [if_neg hself]
    by_cases hdup : RoutingTable.lookupDirectByNode s.tbl hdr.source_node
        ≠ invalid_connection_handle
    · rw [if_pos hdup]
      simp [List.countP_cons, isFinalizeEvent, errStep]
    · rw [if_neg hdup]
      simp only [lookup_after_addDirect s.tbl c hdr.source_node hc]
      simp [List.countP_cons, isFinalizeEvent]

theorem server_handshake_finalize_once_witness :
    ((3 : ConnHdl) ≠ invalid_connection_handle
        ∧ List.length ([] : List Nat)
          = Header.payload_len ⟨20, 99, 0, 0, 0, OP_SERVER_HANDSHAKE, version⟩)
      ∧ (handle ⟨⟨[(1, 10)], []⟩, 99, [], []⟩ 3 []
          ⟨20, 99, 0, 0, 0, OP_SERVER_HANDSHAKE, version⟩ true).events.countP
          isFinalizeEvent = 1 :=
  ⟨⟨by decide, by decide⟩,
   server_handshake_finalize_once ⟨⟨[(1, 10)], []⟩, 99, [], []⟩ 3 []
     ⟨20, 99, 0, 0, 0, OP_SERVER_HANDSHAKE, version⟩
     (by decide) (by decide) (by decide)⟩

theorem clientHandshakeStep_cs (s : Instance) (c : ConnHdl) (hdr : Header) :
    (clientHandshakeStep s c hdr).cs = ConnectionState.await_header := by
  unfold clientHandshakeStep
  split <;> rfl

theorem serverHandshakeStep_close (s : Instance) (c : ConnHdl) (hdr : Header)
    (payload : Option (List Nat)) :
    (serverHandshakeStep s c hdr payload).cs = ConnectionState.close_connection →
    ∃ t, (serverHandshakeStep s c hdr payload).inst.tbl
      = (RoutingTable.eraseDirect t c).1 := by
  unfold serverHandshakeStep
  by_cases hself : hdr.source_node = s.thisNode
  · rw [if_pos hself]
    intro _
    exact ⟨s.tbl, rfl⟩
  · rw [if_neg hself]
    by_cases hdup : RoutingTable.lookupDirectByNode s.tbl hdr.source_node
        ≠ invalid_connection_handle
    · rw [if_pos hdup]
      intro _
      exact ⟨s.tbl, rfl⟩
    · rw [if_neg hdup]
      simp only []
      split
      · intro _
        exact ⟨_, rfl⟩
      · intro h
        simp at h

theorem dispatchMessageStep_close (s : Instance) (c : ConnHdl) (hdr : Header)
    (payload : Option (List Nat)) :
    (dispatchMessageStep s c hdr payload).cs = ConnectionState.close_connection →
    ∃ t, (dispatchMessageStep s c hdr payload).inst.tbl
      = (RoutingTable.eraseDirect t c).1 := by
  unfold dispatchMessageStep
  by_cases hpv : payloadValid hdr payload = true
  · rw [if_neg (not_not_intro hpv)]
    simp only []
    split
    · intro h
      simp at h
    · intro h
      simp at h
  · rw [if_pos hpv]
    intro _
    exact ⟨s.tbl, rfl⟩

theorem processFrame_close (s : Instance) (c : ConnHdl) (hdr : Header)
    (payload : Option (List Nat)) :
    (processFrame s c hdr payload).cs = ConnectionState.close_connection →
    ∃ t, (processFrame s c hdr payload).inst.tbl
      = (RoutingTable.eraseDirect t c).1 := by
  unfold processFrame
  by_cases hfwd : isHandshake hdr = false ∧ isHeartbeat hdr = false
      ∧ hdr.dest_node ≠ s.thisNode
  · rw [if_pos hfwd]
    cases hl : RoutingTable.lookup s.tbl hdr.dest_node with
    | some path =>
        intro h
        simp at h
    | none =>
        by_cases hsrc : hdr.source_node ≠ s.thisNode
        · rw [if_pos hsrc]
          cases hr : RoutingTable.lookup s.tbl hdr.source_node with
          | some rev =>
              intro h
              simp at h
          | none =>
              intro h
              simp at h
        · rw [if_neg hsrc]
          intro h
          simp at h
  · rw [if_neg hfwd]
    by_cases h0 : hdr.operation = OP_SERVER_HANDSHAKE
    · rw [if_pos h0]
      exact serverHandshakeStep_close s c hdr payload
    · rw [if_neg h0]
      by_cases h1 : hdr.operation = OP_CLIENT_HANDSHAKE
      · rw [if_pos h1]
        intro h
        rw [clientHandshakeStep_cs] at h
        simp at h
      · rw [if_neg h1]
        by_cases h2 : hdr.operation = OP_DISPATCH_MESSAGE
        · rw [if_pos h2]
          exact dispatchMessageStep_close s c hdr payload
        · rw [if_neg h2]
          by_cases h3 : hdr.operation = OP_ANNOUNCE_PROXY_INSTANCE
          · rw [if_pos h3]
            intro h
            simp at h
          · rw [if_neg h3]
            by_cases h4 : hdr.operation = OP_KILL_PROXY_INSTANCE
            · rw [if_pos h4]
              intro h
              simp at h
            · rw [if_neg h4]
              by_cases h5 : hdr.operation = OP_HEARTBEAT
              · rw [if_pos h5]
                intro h
                simp at h
              · rw [if_neg h5]
                intro _
                exact ⟨s.tbl, rfl⟩

/-- C4: `handle` never returns `close_connection` without the
`erase_direct(handle, purge_state)` cleanup having run on the
then-current routing table: the resulting table is the image of an
`erase_direct` on this connection, so no direct entry for the
connection survives. -/
theorem handle_close_ran_cleanup (s : Instance) (c : ConnHdl) (buf : List Nat)
    (hdrSlot : Header) (isPayload : Bool) :
    (handle s c buf hdrSlot isPayload).cs = ConnectionState.close_connection →
    ∃ t, (handle s c buf hdrSlot isPayload).inst.tbl
        = (RoutingTable.eraseDirect t c).1
      ∧ RoutingTable.lookupDirectByHdl
          (handle s c buf hdrSlot isPayload).inst.tbl c = invalid_node_id := by
  have main : (handle s c buf hdrSlot isPayload).cs = ConnectionState.close_connection →
      ∃ t, (handle s c buf hdrSlot isPayload).inst.tbl
        = (RoutingTable.eraseDirect t c).1 := by
    unfold handle
    cases isPayload with
    | true =>
        rw [if_pos rfl]
        by_cases hlen : buf.length ≠ hdrSlot.payload_len
        · rw [if_pos hlen]
          intro _
          exact ⟨s.tbl, rfl⟩
        · rw [if_neg hlen]
          exact processFrame_close s c hdrSlot (some buf)
    | false =>
        rw [if_neg (by simp)]
        cases hd : decodeHeader buf with
        | none =>
            intro _
            exact ⟨s.tbl, rfl⟩
        | some h =>
            simp only []
            by_cases hv : valid h = false
            · rw [if_pos hv]
              intro _
              exact ⟨s.tbl, rfl⟩
            · rw [if_neg hv]
              by_cases hp : h.payload_len > 0
              · rw [if_pos hp]
                intro hcs
                simp at hcs
              · rw [if_neg hp]
                exact processFrame_close s c h none
  intro h
  obtain ⟨t, ht⟩ := main h
  refine ⟨t, ht, ?_⟩
  rw [ht]
  exact eraseDirect_lookupHdl t c

theorem handle_close_ran_cleanup_witness :
    (handle ⟨⟨[(1, 10)], []⟩, 99, [], []⟩ 1 []
        ⟨10, 50, 7, 8, 2, OP_DISPATCH_MESSAGE, 77⟩ false).cs
      = ConnectionState.close_connection
    ∧ ∃ t, (handle ⟨⟨[(1, 10)], []⟩, 99, [], []⟩ 1 []
          ⟨10, 50, 7, 8, 2, OP_DISPATCH_MESSAGE, 77⟩ false).inst.tbl
        = (RoutingTable.eraseDirect t 1).1
      ∧ RoutingTable.lookupDirectByHdl
          (handle ⟨⟨[(1, 10)], []⟩, 99, [], []⟩ 1 []
            ⟨10, 50, 7, 8, 2, OP_DISPATCH_MESSAGE, 77⟩ false).inst.tbl 1
        = invalid_node_id :=
  ⟨by decide,
   handle_close_ran_cleanup ⟨⟨[(1, 10)], []⟩, 99, [], []⟩ 1 []
     ⟨10, 50, 7, 8, 2, OP_DISPATCH_MESSAGE, 77⟩ false (by decide)⟩

/-- A `dispatch_message` frame addressed to the local node (payload
received) enters the switch's `dispatch_message` case. -/
theorem handle_dispatch_message_step (s : Instance) (c : ConnHdl)
    (buf : List Nat) (hdr : Header)
    (hlen : buf.length = hdr.payload_len)
    (hop : hdr.operation = OP_DISPATCH_MESSAGE)
    (hdest : hdr.dest_node = s.thisNode) :
    handle s c buf hdr true = dispatchMessageStep s c hdr (some buf) := by
  unfold handle
  rw [if_pos rfl, if_neg (by simp [hlen])]
  unfold processFrame
  rw [if_neg (by simp [hdest])]
  rw [if_neg (by simp [hop, OP_DISPATCH_MESSAGE, OP_SERVER_HANDSHAKE])]
  rw [if_neg (by simp [hop, OP_DISPATCH_MESSAGE, OP_CLIENT_HANDSHAKE])]
  rw [if_pos hop]

/-- C5: on a locally delivered `dispatch_message`,
`learned_new_node_indirectly(source_node)` is upcalled iff the source
is neither invalid, nor the local node, nor the direct peer of the
receiving connection, has no direct route, and
`add_indirect(last_hop, source_node)` reports a first discovery. -/
theorem dispatch_message_indirect_learning (s : Instance) (c : ConnHdl)
    (buf : List Nat) (hdr : Header)
    (hlen : buf.length = hdr.payload_len)
    (hop : hdr.operation = OP_DISPATCH_MESSAGE)
    (hdest : hdr.dest_node = s.thisNode) :
    Event.learned_new_node_indirectly hdr.source_node
        ∈ (handle s c buf hdr true).events
      ↔ (hdr.source_node ≠ invalid_node_id
          ∧ hdr.source_node ≠ s.thisNode
          ∧ RoutingTable.lookupDirectByHdl s.tbl c ≠ hdr.source_node
          ∧ RoutingTable.lookupDirectByNode s.tbl hdr.source_node
              = invalid_connection_handle
          ∧ (RoutingTable.addIndirect s.tbl
              (RoutingTable.lookupDirectByHdl s.tbl c) hdr.source_node).2 = true) := by
  rw [handle_dispatch_message_step s c buf hdr hlen hop hdest]
  have hpv : payloadValid hdr (some buf) = true := by
    simp [payloadValid, hlen]
  unfold dispatchMessageStep
  rw [if_neg (not_not_intro hpv)]
  simp only []
  by_cases hcond : hdr.source_node ≠ invalid_node_id
      ∧ hdr.source_node ≠ s.thisNode
      ∧ RoutingTable.lookupDirectByHdl s.tbl c ≠ hdr.source_node
      ∧ RoutingTable.lookupDirectByNode s.tbl hdr.source_node
          = invalid_connection_handle
  · rw [if_pos hcond]
    by_cases hai : (RoutingTable.addIndirect s.tbl
        (RoutingTable.lookupDirectByHdl s.tbl c) hdr.source_node).2 = true
    · rw [if_pos hai]
      simp [hcond.1, hcond.2.1, hcond.2.2.1, hcond.2.2.2, hai]
    · rw [if_neg hai]
      simp [hai]
  · rw [if_neg hcond]
    constructor
    · intro hmem
      simp at hmem
    · rintro ⟨h1, h2, h3, h4, h5⟩
      exact absurd ⟨h1, h2, h3, h4⟩ hcond

theorem dispatch_message_indirect_learning_witness :
    (List.length [0, 0, 0, 0]
        = Header.payload_len ⟨20, 99, 7, 8, 4, OP_DISPATCH_MESSAGE, 5⟩
      ∧ Header.dest_node ⟨20, 99, 7, 8, 4, OP_DISPATCH_MESSAGE, 5⟩
        = Instance.thisNode ⟨⟨[(1, 10)], []⟩, 99, [], []⟩)
      ∧ (Event.learned_new_node_indirectly
          (Header.source_node ⟨20, 99, 7, 8, 4, OP_DISPATCH_MESSAGE, 5⟩)
          ∈ (handle ⟨⟨[(1, 10)], []⟩, 99, [], []⟩ 1 [0, 0, 0, 0]
            ⟨20, 99, 7, 8, 4, OP_DISPATCH_MESSAGE, 5⟩ true).events
        ↔ ((20 : NodeId) ≠ invalid_node_id
            ∧ (20 : NodeId) ≠ 99
            ∧ RoutingTable.lookupDirectByHdl (RoutingTable.mk [(1, 10)] []) 1 ≠ 20
            ∧ RoutingTable.lookupDirectByNode (RoutingTable.mk [(1, 10)] []) 20
                = invalid_connection_handle
            ∧ (RoutingTable.addIndirect (RoutingTable.mk [(1, 10)] [])
                (RoutingTable.lookupDirectByHdl (RoutingTable.mk [(1, 10)] []) 1)
                20).2 = true)) :=
  ⟨⟨by decide, by decide⟩,
   dispatch_message_indirect_learning ⟨⟨[(1, 10)], []⟩, 99, [], []⟩ 1 [0, 0, 0, 0]
     ⟨20, 99, 7, 8, 4, OP_DISPATCH_MESSAGE, 5⟩ (by decide) (by decide) (by decide)⟩

/-- Decoding an encoded header with in-range fields is lossless. -/
theorem decodeHeader_encodeHeader_exact (h : Header)
    (hsn : h.source_node < 2 ^ 32) (hdn : h.dest_node < 2 ^ 32)
    (hsa : h.source_actor < 2 ^ 32) (hda : h.dest_actor < 2 ^ 32)
    (hpl : h.payload_len < 2 ^ 32) (hopb : h.operation < 256)
    (hod : h.operation_data < 2 ^ 64) :
    decodeHeader (encodeHeader h) = some h := by
  have hbase := decodeHeader_encodeHeader h []
  rw [List.append_nil] at hbase
  rw [hbase, Nat.mod_eq_of_lt hsn, Nat.mod_eq_of_lt hdn, Nat.mod_eq_of_lt hsa,
    Nat.mod_eq_of_lt hda, Nat.mod_eq_of_lt hpl, Nat.mod_eq_of_lt hopb,
    Nat.mod_eq_of_lt hod]

/-- C6: the write/handle framing round-trip.  A frame assembled by
`instance::write` (placeholder reserve, payload write, header
back-patch with `payload_len` = bytes written) equals the encoded
header followed by the payload; feeding its header chunk to `handle`
yields `await_payload` with the original header in the slot and the
state untouched, and feeding the payload chunk passes the length check
and processes exactly the original header and payload. -/
theorem write_handle_roundtrip (s : Instance) (c : ConnHdl) (h : Header)
    (p : List Nat) (dummy : Header)
    (hv : valid h = true)
    (hlen : h.payload_len = p.length)
    (hpne : p ≠ [])
    (hsn : h.source_node < 2 ^ 32) (hdn : h.dest_node < 2 ^ 32)
    (hsa : h.source_actor < 2 ^ 32) (hda : h.dest_actor < 2 ^ 32)
    (hod : h.operation_data < 2 ^ 64) :
    (instWrite [] h.operation h.operation_data h.source_node h.dest_node
        h.source_actor h.dest_actor (some p)).1 = encodeHeader h ++ p
      ∧ (handle s c ((encodeHeader h ++ p).take hdrSize) dummy false).cs
          = ConnectionState.await_payload
      ∧ (handle s c ((encodeHeader h ++ p).take hdrSize) dummy false).hdr = h
      ∧ (handle s c ((encodeHeader h ++ p).take hdrSize) dummy false).inst = s
      ∧ (encodeHeader h ++ p).drop hdrSize = p
      ∧ handle s c ((encodeHeader h ++ p).drop hdrSize) h true
          = processFrame s c h (some p) := by
  have hvfacts := hv
  unfold valid at hvfacts
  rw [Bool.and_eq_true, Bool.and_eq_true, Bool.and_eq_true] at hvfacts
  have hop5 : h.operation ≤ OP_HEARTBEAT := of_decide_eq_true hvfacts.1.1.1
  have hplmax : h.payload_len ≤ MAX_PAYLOAD := of_decide_eq_true hvfacts.2
  have hopb : h.operation < 256 := by
    unfold OP_HEARTBEAT at hop5
    omega
  have hpl32 : h.payload_len < 2 ^ 32 := by
    unfold MAX_PAYLOAD at hplmax
    omega
  have hdec : decodeHeader (encodeHeader h) = some h :=
    decodeHeader_encodeHeader_exact h hsn hdn hsa hda hpl32 hopb hod
  have hplpos : 0 < h.payload_len := by
    rw [hlen]
    exact List.length_pos.2 hpne
  have htake : (encodeHeader h ++ p).take hdrSize = encodeHeader h := by
    rw [← encodeHeader_length h]
    exact List.take_left _ _
  have hdrop : (encodeHeader h ++ p).drop hdrSize = p := by
    rw [← encodeHeader_length h]
    exact List.drop_left _ _
  have hframe : (instWrite [] h.operation h.operation_data h.source_node h.dest_node
      h.source_actor h.dest_actor (some p)).1 = encodeHeader h ++ p := by
    rw [instWrite_some]
    have hhdr : (⟨h.source_node, h.dest_node, h.source_actor, h.dest_actor,
        p.length, h.operation, h.operation_data⟩ : Header) = h := by
      cases h
      simp only at hlen
      rw [hlen]
    rw [hhdr, List.nil_append]
  have hrun1 : handle s c ((encodeHeader h ++ p).take hdrSize) dummy false
      = ⟨ConnectionState.await_payload, s, h, []⟩ := by
    unfold handle
    rw [if_neg (by simp), htake, hdec]
    simp only []
    rw [if_neg (by simp [hv]), if_pos hplpos]
  have hrun2 : handle s c ((encodeHeader h ++ p).drop hdrSize) h true
      = processFrame s c h (some p) := by
    rw [hdrop]
    unfold handle
    rw [if_pos rfl, if_neg (by simp [hlen])]
  exact ⟨hframe, by rw [hrun1], by rw [hrun1], by rw [hrun1], hdrop, hrun2⟩

theorem write_handle_roundtrip_witness :
    (valid ⟨3, 4, 5, 6, 3, OP_DISPATCH_MESSAGE, 1000⟩ = true
        ∧ Header.payload_len ⟨3, 4, 5, 6, 3, OP_DISPATCH_MESSAGE, 1000⟩
            = List.length [9, 8, 7]
        ∧ ([9, 8, 7] : List Nat) ≠ [])
      ∧ ((instWrite [] OP_DISPATCH_MESSAGE 1000 3 4 5 6 (some [9, 8, 7])).1
          = encodeHeader ⟨3, 4, 5, 6, 3, OP_DISPATCH_MESSAGE, 1000⟩ ++ [9, 8, 7]
        ∧ (handle ⟨⟨[(1, 10)], []⟩, 99, [], []⟩ 1
            ((encodeHeader ⟨3, 4, 5, 6, 3, OP_DISPATCH_MESSAGE, 1000⟩
              ++ [9, 8, 7]).take hdrSize)
            ⟨0, 0, 0, 0, 0, 0, 0⟩ false).cs = ConnectionState.await_payload
        ∧ (handle ⟨⟨[(1, 10)], []⟩, 99, [], []⟩ 1
            ((encodeHeader ⟨3, 4, 5, 6, 3, OP_DISPATCH_MESSAGE, 1000⟩
              ++ [9, 8, 7]).take hdrSize)
            ⟨0, 0, 0, 0, 0, 0, 0⟩ false).hdr
          = ⟨3, 4, 5, 6, 3, OP_DISPATCH_MESSAGE, 1000⟩
        ∧ (handle ⟨⟨[(1, 10)], []⟩, 99, [], []⟩ 1
            ((encodeHeader ⟨3, 4, 5, 6, 3, OP_DISPATCH_MESSAGE, 1000⟩
              ++ [9, 8, 7]).take hdrSize)
            ⟨0, 0, 0, 0, 0, 0, 0⟩ false).inst = ⟨⟨[(1, 10)], []⟩, 99, [], []⟩
        ∧ (encodeHeader ⟨3, 4, 5, 6, 3, OP_DISPATCH_MESSAGE, 1000⟩
            ++ [9, 8, 7]).drop hdrSize = [9, 8, 7]
        ∧ handle ⟨⟨[(1, 10)], []⟩, 99, [], []⟩ 1
            ((encodeHeader ⟨3, 4, 5, 6, 3, OP_DISPATCH_MESSAGE, 1000⟩
              ++ [9, 8, 7]).drop hdrSize)
            ⟨3, 4, 5, 6, 3, OP_DISPATCH_MESSAGE, 1000⟩ true
          = processFrame ⟨⟨[(1, 10)], []⟩, 99, [], []⟩ 1
              ⟨3, 4, 5, 6, 3, OP_DISPATCH_MESSAGE, 1000⟩ (some [9, 8, 7])) :=
  ⟨⟨by decide, by decide, by decide⟩,
   write_handle_roundtrip ⟨⟨[(1, 10)], []⟩, 99, [], []⟩ 1
     ⟨3, 4, 5, 6, 3, OP_DISPATCH_MESSAGE, 1000⟩ [9, 8, 7] ⟨0, 0, 0, 0, 0, 0, 0⟩
     (by decide) (by decide) (by decide) (by decide) (by decide) (by decide)
     (by decide) (by decide)⟩

/-- C7: `dispatch` (precondition: remote receiver) fails with
`message_sending_failed` and writes nothing when no route exists;
otherwise it appends a `dispatch_message` frame with
`operation_data = mid` and payload `(forwarding_stack, msg)` to the
route's buffer, flushes, and reports `message_sent`. -/
theorem dispatch_route_or_fail (s : Instance) (sender : Option ActorAddr)
    (fwd : List ActorAddr) (receiver : ActorAddr) (mid : Nat) (msg : List Nat)
    (hpre : receiver.node ≠ s.thisNode) :
    (RoutingTable.lookup s.tbl receiver.node = none →
        (dispatch s sender fwd receiver mid msg).1 = false
          ∧ (dispatch s sender fwd receiver mid msg).2.1 = s
          ∧ (dispatch s sender fwd receiver mid msg).2.2
              = [Event.hook_message_sending_failed])
      ∧ (∀ path, RoutingTable.lookup s.tbl receiver.node = some path →
          (dispatch s sender fwd receiver mid msg).1 = true
            ∧ getBuf (dispatch s sender fwd receiver mid msg).2.1 path.hdl
                = getBuf s path.hdl
                  ++ encodeHeader
                      ⟨(match sender with | some a => a.node | none => s.thisNode),
                       receiver.node,
                       (match sender with | some a => a.id | none => invalid_actor_id),
                       receiver.id, (encodeDispatchPayload fwd msg).length,
                       OP_DISPATCH_MESSAGE, mid⟩
                  ++ encodeDispatchPayload fwd msg
            ∧ (dispatch s sender fwd receiver mid msg).2.2
                = [Event.flushed path.hdl, Event.hook_message_sent]) := by
  constructor
  · intro hnone
    unfold dispatch
    rw [hnone]
    exact ⟨rfl, rfl, rfl⟩
  · intro path hsome
    unfold dispatch
    rw [hsome]
    refine ⟨rfl, ?_, rfl⟩
    show getBuf (appendBuf s path.hdl _) path.hdl = _
    rw [getBuf_appendBuf_same, writeFrame_some, List.append_assoc]

theorem dispatch_route_or_fail_witness :
    (ActorAddr.node ⟨10, 44⟩ ≠ Instance.thisNode ⟨⟨[(1, 10)], []⟩, 99, [], []⟩)
      ∧ ((RoutingTable.lookup (RoutingTable.mk [(1, 10)] []) (ActorAddr.node ⟨10, 44⟩)
            = none →
          (dispatch ⟨⟨[(1, 10)], []⟩, 99, [], []⟩ none [] ⟨10, 44⟩ 123 [1, 2, 3]).1
              = false
            ∧ (dispatch ⟨⟨[(1, 10)], []⟩, 99, [], []⟩ none [] ⟨10, 44⟩ 123
                [1, 2, 3]).2.1 = ⟨⟨[(1, 10)], []⟩, 99, [], []⟩
            ∧ (dispatch ⟨⟨[(1, 10)], []⟩, 99, [], []⟩ none [] ⟨10, 44⟩ 123
                [1, 2, 3]).2.2 = [Event.hook_message_sending_failed])
        ∧ (∀ path, RoutingTable.lookup (RoutingTable.mk [(1, 10)] [])
              (ActorAddr.node ⟨10, 44⟩) = some path →
            (dispatch ⟨⟨[(1, 10)], []⟩, 99, [], []⟩ none [] ⟨10, 44⟩ 123
                [1, 2, 3]).1 = true
              ∧ getBuf (dispatch ⟨⟨[(1, 10)], []⟩, 99, [], []⟩ none [] ⟨10, 44⟩ 123
                  [1, 2, 3]).2.1 path.hdl
                = getBuf ⟨⟨[(1, 10)], []⟩, 99, [], []⟩ path.hdl
                  ++ encodeHeader
                      ⟨(match (none : Option ActorAddr) with
                          | some a => a.node
                          | none => Instance.thisNode ⟨⟨[(1, 10)], []⟩, 99, [], []⟩),
                       ActorAddr.node ⟨10, 44⟩,
                       (match (none : Option ActorAddr) with
                          | some a => a.id | none => invalid_actor_id),
                       ActorAddr.id ⟨10, 44⟩,
                       (encodeDispatchPayload [] [1, 2, 3]).length,
                       OP_DISPATCH_MESSAGE, 123⟩
                  ++ encodeDispatchPayload [] [1, 2, 3]
              ∧ (dispatch ⟨⟨[(1, 10)], []⟩, 99, [], []⟩ none [] ⟨10, 44⟩ 123
                  [1, 2, 3]).2.2
                = [Event.flushed path.hdl, Event.hook_message_sent])) :=
  ⟨by decide,
   dispatch_route_or_fail ⟨⟨[(1, 10)], []⟩, 99, [], []⟩ none [] ⟨10, 44⟩ 123
     [1, 2, 3] (by decide)⟩

theorem removeAllFor_spec (whom : ActorAddr) (l : List PubEntry) :
    removeAllFor whom l
      = (l.filter (fun e => e.2.1 != whom),
         l.countP (fun e => e.2.1 == whom),
         (l.filter (fun e => e.2.1 == whom)).map (fun e => (whom, e.1))) := by
  induction l with
  | nil => rfl
  | cons e rest ih =>
      by_cases he : e.2.1 = whom
      · have hb : (e.2.1 != whom) = false := by simp [he]
        have hq : (e.2.1 == whom) = true := by simp [he]
        simp [removeAllFor, he, ih, List.countP_cons, List.filter, hb, hq]
      · have hb : (e.2.1 != whom) = true := by simp [he]
        have hq : (e.2.1 == whom) = false := by simp [he]
        simp [removeAllFor, he, ih, List.countP_cons, List.filter, hb, hq]

theorem key_nodup_unique {l : List PubEntry}
    (hnd : (l.map (fun e => e.1)).Nodup) {e e' : PubEntry}
    (he : e ∈ l) (he' : e' ∈ l) (hk : e.1 = e'.1) : e = e' := by
  induction l with
  | nil => cases he
  | cons a rest ih =>
      rw [List.map_cons, List.nodup_cons] at hnd
      rcases List.mem_cons.1 he with rfl | he1
      · rcases List.mem_cons.1 he' with rfl | he2
        · rfl
        · exact absurd (by rw [hk]; exact List.mem_map_of_mem _ he2) hnd.1
      · rcases List.mem_cons.1 he' with rfl | he2
        · exact absurd (by rw [← hk]; exact List.mem_map_of_mem _ he1) hnd.1
        · exact ih hnd.2 he1 he2

/-- C8: `remove_published_actor(whom, port, cb)` — a nonzero port
removes the entry at that port only when its actor equals `whom`
(count 1) and otherwise removes nothing (count 0); port 0 removes every
entry whose actor equals `whom`; the callback fires once per removal
and the count equals the number of removals. -/
theorem remove_published_actor_spec (pas : List PubEntry) (whom : ActorAddr)
    (port : Nat) (hnd : (pas.map (fun e => e.1)).Nodup) :
    (removePublishedActorBy pas whom port).2.2.length
        = (removePublishedActorBy pas whom port).2.1
      ∧ (port ≠ 0 →
          ((∃ e ∈ pas, e.1 = port ∧ e.2.1 = whom) →
              (removePublishedActorBy pas whom port).1
                  = pas.eraseP (fun x => x.1 == port)
                ∧ (removePublishedActorBy pas whom port).2.1 = 1)
            ∧ ((¬ ∃ e ∈ pas, e.1 = port ∧ e.2.1 = whom) →
              (removePublishedActorBy pas whom port).1 = pas
                ∧ (removePublishedActorBy pas whom port).2.1 = 0))
      ∧ (port = 0 →
          (removePublishedActorBy pas whom port).1
              = pas.filter (fun e => e.2.1 != whom)
            ∧ (removePublishedActorBy pas whom port).2.1
              = pas.countP (fun e => e.2.1 == whom)
            ∧ (removePublishedActorBy pas whom port).2.2
              = (pas.filter (fun e => e.2.1 == whom)).map (fun e => (whom, e.1))) := by
  by_cases hport : port = 0
  · have hstep : removePublishedActorBy pas whom port = removeAllFor whom pas := by
      unfold removePublishedActorBy
      rw [if_neg (not_not_intro hport)]
    rw [hstep, removeAllFor_spec]
    refine ⟨?_, fun hne => absurd hport hne, fun _ => ⟨rfl, rfl, rfl⟩⟩
    simp [List.countP_eq_length_filter]
  · unfold removePublishedActorBy
    rw [if_pos hport]
    cases hfind : pas.find? (fun e => e.1 == port) with
    | none =>
        refine ⟨rfl, fun _ => ⟨?_, fun _ => ⟨rfl, rfl⟩⟩, fun h0 => absurd h0 hport⟩
        intro hex
        obtain ⟨e, hmem, hkey, _⟩ := hex
        rw [List.find?_eq_none] at hfind
        exact absurd (by simp [hkey]) (hfind e hmem)
    | some e =>
        have hkey : e.1 = port := by
          have := List.find?_some hfind
          simpa using this
        have hmem : e ∈ pas := List.mem_of_find?_eq_some hfind
        simp only []
        by_cases hwhom : e.2.1 = whom
        · rw [if_pos hwhom]
          refine ⟨rfl, fun _ => ⟨fun _ => ⟨rfl, rfl⟩, ?_⟩, fun h0 => absurd h0 hport⟩
          intro hnex
          exact absurd ⟨e, hmem, hkey, hwhom⟩ hnex
        · rw [if_neg hwhom]
          refine ⟨rfl, fun _ => ⟨?_, fun _ => ⟨rfl, rfl⟩⟩, fun h0 => absurd h0 hport⟩
          intro hex
          obtain ⟨e', hmem', hkey', hwhom'⟩ := hex
          have : e = e' := key_nodup_unique hnd hmem hmem' (by rw [hkey, hkey'])
          rw [this] at hwhom
          exact absurd hwhom' hwhom

theorem remove_published_actor_spec_witness :
    (([(1, (⟨9, 9⟩ : ActorAddr), ([] : List (List Nat))), (2, ⟨8, 8⟩, []),
        (3, ⟨9, 9⟩, [])].map (fun e => e.1)).Nodup)
      ∧ ((removePublishedActorBy
            [(1, ⟨9, 9⟩, []), (2, ⟨8, 8⟩, []), (3, ⟨9, 9⟩, [])] ⟨9, 9⟩ 0).2.2.length
          = (removePublishedActorBy
            [(1, ⟨9, 9⟩, []), (2, ⟨8, 8⟩, []), (3, ⟨9, 9⟩, [])] ⟨9, 9⟩ 0).2.1
        ∧ ((0 : Nat) ≠ 0 →
            ((∃ e ∈ [(1, (⟨9, 9⟩ : ActorAddr), ([] : List (List Nat))),
                (2, ⟨8, 8⟩, []), (3, ⟨9, 9⟩, [])], e.1 = 0 ∧ e.2.1 = ⟨9, 9⟩) →
                (removePublishedActorBy
                    [(1, ⟨9, 9⟩, []), (2, ⟨8, 8⟩, []), (3, ⟨9, 9⟩, [])] ⟨9, 9⟩ 0).1
                    = [(1, ⟨9, 9⟩, []), (2, ⟨8, 8⟩, []),
                        (3, ⟨9, 9⟩, [])].eraseP (fun x => x.1 == 0)
                  ∧ (removePublishedActorBy
                      [(1, ⟨9, 9⟩, []), (2, ⟨8, 8⟩, []), (3, ⟨9, 9⟩, [])]
                      ⟨9, 9⟩ 0).2.1 = 1)
              ∧ ((¬ ∃ e ∈ [(1, (⟨9, 9⟩ : ActorAddr), ([] : List (List Nat))),
                  (2, ⟨8, 8⟩, []), (3, ⟨9, 9⟩, [])], e.1 = 0 ∧ e.2.1 = ⟨9, 9⟩) →
                (removePublishedActorBy
                    [(1, ⟨9, 9⟩, []), (2, ⟨8, 8⟩, []), (3, ⟨9, 9⟩, [])] ⟨9, 9⟩ 0).1
                    = [(1, ⟨9, 9⟩, []), (2, ⟨8, 8⟩, []), (3, ⟨9, 9⟩, [])]
                  ∧ (removePublishedActorBy
                      [(1, ⟨9, 9⟩, []), (2, ⟨8, 8⟩, []), (3, ⟨9, 9⟩, [])]
                      ⟨9, 9⟩ 0).2.1 = 0))
        ∧ ((0 : Nat) = 0 →
            (removePublishedActorBy
                [(1, ⟨9, 9⟩, []), (2, ⟨8, 8⟩, []), (3, ⟨9, 9⟩, [])] ⟨9, 9⟩ 0).1
                = [(1, (⟨9, 9⟩ : ActorAddr), ([] : List (List Nat))),
                    (2, ⟨8, 8⟩, []), (3, ⟨9, 9⟩, [])].filter
                    (fun e => e.2.1 != ⟨9, 9⟩)
              ∧ (removePublishedActorBy
                  [(1, ⟨9, 9⟩, []), (2, ⟨8, 8⟩, []), (3, ⟨9, 9⟩, [])]
                  ⟨9, 9⟩ 0).2.1
                = [(1, (⟨9, 9⟩ : ActorAddr), ([] : List (List Nat))),
                    (2, ⟨8, 8⟩, []), (3, ⟨9, 9⟩, [])].countP
                    (fun e => e.2.1 == ⟨9, 9⟩)
              ∧ (removePublishedActorBy
                  [(1, ⟨9, 9⟩, []), (2, ⟨8, 8⟩, []), (3, ⟨9, 9⟩, [])]
                  ⟨9, 9⟩ 0).2.2
                = ([(1, (⟨9, 9⟩ : ActorAddr), ([] : List (List Nat))),
                    (2, ⟨8, 8⟩, []), (3, ⟨9, 9⟩, [])].filter
                    (fun e => e.2.1 == ⟨9, 9⟩)).map (fun e => (⟨9, 9⟩, e.1)))) :=
  ⟨by decide,
   remove_published_actor_spec
     [(1, ⟨9, 9⟩, []), (2, ⟨8, 8⟩, []), (3, ⟨9, 9⟩, [])] ⟨9, 9⟩ 0 (by decide)⟩

/-- C9: `write_kill_proxy_instance(buf, dest, aid, reason)` emits a
frame with empty payload, `source_actor = aid`, and `operation_data`
equal to `reason` on the wire; the narrowing cast through 32 bits is
lossless for every representable exit reason (`reason < 2^32`). -/
theorem write_kill_proxy_spec (thisN : NodeId) (buf : List Nat) (dest : NodeId)
    (aid : ActorId) (rsn : Nat)
    (haid : aid < 2 ^ 32) (hrsn : rsn < 2 ^ 32) :
    writeKillProxyInstance thisN buf dest aid rsn
        = buf ++ encodeHeader ⟨thisN, dest, aid, invalid_actor_id, 0,
            OP_KILL_PROXY_INSTANCE, rsn⟩
      ∧ (writeKillProxyInstance thisN [] dest aid rsn).length = hdrSize
      ∧ ∃ h', decodeHeader (writeKillProxyInstance thisN [] dest aid rsn) = some h'
          ∧ h'.payload_len = 0 ∧ h'.source_actor = aid ∧ h'.operation_data = rsn
          ∧ h'.operation = OP_KILL_PROXY_INSTANCE := by
  have hmod : rsn % 2 ^ 32 = rsn := Nat.mod_eq_of_lt hrsn
  have hfr : ∀ b : List Nat, writeKillProxyInstance thisN b dest aid rsn
      = b ++ encodeHeader ⟨thisN, dest, aid, invalid_actor_id, 0,
          OP_KILL_PROXY_INSTANCE, rsn⟩ := by
    intro b
    unfold writeKillProxyInstance
    rw [instWrite_none, hmod]
  refine ⟨hfr buf, ?_, ?_⟩
  · rw [hfr [], List.nil_append, encodeHeader_length]
  · have hdec := decodeHeader_encodeHeader
      ⟨thisN, dest, aid, invalid_actor_id, 0, OP_KILL_PROXY_INSTANCE, rsn⟩ []
    rw [List.append_nil] at hdec
    refine ⟨_, by rw [hfr [], List.nil_append, hdec], ?_, ?_, ?_, ?_⟩
    · rfl
    · exact Nat.mod_eq_of_lt haid
    · exact Nat.mod_eq_of_lt (lt_trans hrsn (by norm_num))
    · rfl

theorem write_kill_proxy_spec_witness :
    ((7 : ActorId) < 2 ^ 32 ∧ (3 : Nat) < 2 ^ 32)
      ∧ (writeKillProxyInstance 99 [5] 10 7 3
          = [5] ++ encodeHeader ⟨99, 10, 7, invalid_actor_id, 0,
              OP_KILL_PROXY_INSTANCE, 3⟩
        ∧ (writeKillProxyInstance 99 [] 10 7 3).length = hdrSize
        ∧ ∃ h', decodeHeader (writeKillProxyInstance 99 [] 10 7 3) = some h'
            ∧ h'.payload_len = 0 ∧ h'.source_actor = 7 ∧ h'.operation_data = 3
            ∧ h'.operation = OP_KILL_PROXY_INSTANCE) :=
  ⟨⟨by decide, by decide⟩,
   write_kill_proxy_spec 99 [5] 10 7 3 (by decide) (by decide)⟩

end Basp
